import Mathlib

/-!
Shallow embedding of the omg.lol blog CLI core (src/src/blog.ts) and of the
spec-described epoch-seconds feed variant whose handler code is absent from
src/ (only its tests survive there).

Modelling conventions:
* A JavaScript `Date` is its epoch-milliseconds value, as an `Int`
  (`Date.prototype.getTime`).  The tool is specified for UTC calendar days
  only ("Non-goals: timezone-aware date handling beyond UTC"), so
  `setDate(getDate() + 1)` advances the instant by exactly 86400000 ms.
* `toISOString().split('T')[0]` renders the UTC calendar day; two instants
  render to the same "YYYY-MM-DD" string iff they have the same floor-division
  day index, so a date string is modelled as that day index
  (`t / 86400000`, floor division — Lean's `Int` division is Euclidean, which
  coincides with floor division for the positive divisor used here, matching
  JavaScript's `Math.floor`).
* `BlogPost.date_published` holds the instant that `new Date(string)` yields
  for the post's ISO-8601 `date_published` field; the string parse itself is
  the boundary of the embedding.
* JavaScript `Array.prototype.sort` is a stable sort driven by the comparator
  `(a, b) => ta - tb`; it is modelled by the stable `List.insertionSort`.
-/

namespace Blog

/-- `1000 * 60 * 60 * 24`, the divisor in `getDaysBetween`. -/
def msPerDay : Int := 86400000

/-- A record of the `items` feed: `interface BlogPost` with its
`date_published` already parsed to an instant. -/
structure BlogPost where
  id : String
  title : String
  date_published : Int
deriving DecidableEq, Repr

/-- `getPostDate(post) = new Date(post.date_published)`. -/
def getPostDate (post : BlogPost) : Int := post.date_published

/-- `getDateString(date) = date.toISOString().split('T')[0]`, modelled as the
UTC day index of the instant (the rendering to "YYYY-MM-DD" is injective on
day indices). -/
def getDateString (date : Int) : Int := date / msPerDay

/-- `getDaysBetween(start, end) = Math.floor((end.getTime() - start.getTime())
/ (1000*60*60*24)) + 1`.  Note: the raw instants are divided, with no
truncation to midnight. -/
def getDaysBetween (start : Int) (finish : Int) : Int :=
  (finish - start) / msPerDay + 1

/-- The comparator `(a, b) => getPostDate(a).getTime() - getPostDate(b).getTime()`
orders posts by ascending parsed date. -/
def postLe (a b : BlogPost) : Prop := getPostDate a ≤ getPostDate b

instance : DecidableRel postLe := fun a b => Int.decLe _ _

instance : IsTotal BlogPost postLe := ⟨fun a b => Int.le_total _ _⟩

instance : IsTrans BlogPost postLe := ⟨fun _ _ _ hab hbc => le_trans hab hbc⟩

/-- `sortPostsByDate(posts) = [...posts].sort((a, b) => ...)`: a stable sort
of a fresh copy, ascending by date. -/
def sortPostsByDate (posts : List BlogPost) : List BlogPost :=
  posts.insertionSort postLe

/-- The `postCounts` map of `handleTimeline`: built by
`posts.forEach(post => postCounts.set(date, (postCounts.get(date) || 0) + 1))`,
modelled as a function from day index to count (absent key reads as 0). -/
def postCounts (posts : List BlogPost) : Int → Nat :=
  posts.foldl
    (fun counts post => fun d =>
      if d = getDateString (getPostDate post) then counts d + 1 else counts d)
    (fun _ => 0)

/-- One emitted timeline line `${dateStr}  ${count}`: the day index and the
count determine the line (and its gap/error emphasis, `count === 0`). -/
structure TimelineRow where
  date : Int
  count : Nat
deriving DecidableEq, Repr

/-- The gap flag used for presentation emphasis: `count === 0 ? 'error' : 'normal'`. -/
def TimelineRow.isGap (row : TimelineRow) : Bool := row.count == 0

/-- The `while (currentDate <= lastDate)` loop of `handleTimeline`: emit a row
for `currentDate`'s day, then `currentDate.setDate(currentDate.getDate() + 1)`
(one UTC day in milliseconds). -/
def timelineLoop (counts : Int → Nat) (lastDate : Int) (currentDate : Int) :
    List TimelineRow :=
  if h : currentDate ≤ lastDate then
    { date := getDateString currentDate, count := counts (getDateString currentDate) } ::
      timelineLoop counts lastDate (currentDate + msPerDay)
  else
    []
termination_by (lastDate + msPerDay - currentDate).toNat
decreasing_by simp only [msPerDay] at *; omega

/-- The body of `handleTimeline` after `sortPostsByDate`: early return on the
empty list, otherwise loop from `getPostDate(posts[0])` up to
`getPostDate(posts[posts.length - 1])`. -/
def timelineOfSorted (posts : List BlogPost) : List TimelineRow :=
  if h : posts = [] then
    []
  else
    timelineLoop (postCounts posts) (getPostDate (posts.getLast h))
      (getPostDate (posts.head h))

/-- `handleTimeline(feed)`, as a function of `feed.items`, returning the rows
it logs. -/
def handleTimeline (items : List BlogPost) : List TimelineRow :=
  timelineOfSorted (sortPostsByDate items)

/-- The status triple logged as `Total: <n>, Days: <n>, Delta: <n>`. -/
structure StatusSummary where
  total : Int
  days : Int
  delta : Int
deriving DecidableEq, Repr

/-- The body of `handleStatus` after `sortPostsByDate`.  `today` is the value
of the `new Date()` the source reads internally at this point (`handleStatus`
has no time parameter of its own). -/
def statusOfSorted (posts : List BlogPost) (today : Int) : StatusSummary :=
  if h : posts = [] then
    { total := 0, days := 0, delta := 0 }
  else
    let total : Int := posts.length
    let dayCount := getDaysBetween (getPostDate (posts.head h)) today
    { total := total, days := dayCount, delta := total - dayCount }

/-- `handleStatus(feed)`, as a function of `feed.items` and of the instant
`today` that the source obtains internally from `new Date()`. -/
def handleStatus (items : List BlogPost) (today : Int) : StatusSummary :=
  statusOfSorted (sortPostsByDate items) today

/-- The minimum `getPostDate` over a non-empty post list (0 on the empty
list); used to state which instant anchors the status and timeline output. -/
def minDate (posts : List BlogPost) : Int :=
  match posts with
  | [] => 0
  | p :: rest => rest.foldl (fun m q => min m (getPostDate q)) (getPostDate p)

/-! ### The epoch-seconds feed variant

The weblog `entries` handler (epoch-seconds timestamps, `type` discriminator,
authenticated feed) is code of this repository that is not under `src/`; only
its tests are (`src/unnamed/part_003` and the second document of
`src/src/blog.test.ts`).  The definitions below are modelled from the spec. -/

/-- Modelled from the spec: a raw record of the `entries` feed variant.
`date` is the entry's numeric timestamp string parsed to Unix epoch seconds;
`type` is the optional type discriminator (`"post"` | other). -/
structure Entry where
  date : Int
  type : Option String
deriving DecidableEq, Repr

/-- Modelled from the spec: "when an entry carries a type discriminator, keep
only entries whose type equals the literal `post`; entries lacking the
discriminator field are unconditionally kept." -/
def isPostEntry (e : Entry) : Bool :=
  match e.type with
  | none => true
  | some t => t == "post"

/-- Modelled from the spec: "Numeric string representing Unix epoch seconds →
multiply by 1000 (to milliseconds)". -/
def entryInstant (e : Entry) : Int := 1000 * e.date

/-- Modelled from the spec: the Feed Normalizer for the `entries` variant —
filter to posts, decode each timestamp, truncate to the UTC day, and sort
ascending (stably). -/
def postDatesOf (entries : List Entry) : List Int :=
  ((entries.filter isPostEntry).map (fun e => getDateString (entryInstant e))).insertionSort
    (fun a b => a ≤ b)

/-- Modelled from the spec: `computeStatus(posts, now)` — `{0,0,0}` on the
empty sequence, otherwise `total` = length, `days` = inclusive day count from
the earliest post's day through `now`'s day, `delta = total - days`.
`nowDay` is `now` already truncated to its UTC day index. -/
def computeStatus (entries : List Entry) (nowDay : Int) : StatusSummary :=
  match postDatesOf entries with
  | [] => { total := 0, days := 0, delta := 0 }
  | first :: rest =>
    let total : Int := (first :: rest).length
    let days := nowDay - first + 1
    { total := total, days := days, delta := total - days }

/-- Modelled from the spec: `computeTimeline(posts, asOfDay)` — one row per
calendar day in the inclusive range [first post day, `endDay`], ascending,
count 0 for days absent from the bucket map. -/
def computeTimeline (entries : List Entry) (endDay : Int) : List TimelineRow :=
  match postDatesOf entries with
  | [] => []
  | first :: rest =>
    (List.range ((endDay - first).toNat + 1)).map (fun k =>
      { date := first + k, count := (first :: rest).count (first + (k : Int)) })

/-! ### A store model for the mutation claim

JavaScript arrays are heap references; `feed.items` names a cell, `[...posts]`
allocates a fresh cell holding a copy, and `.sort` mutates only the cell it is
called on.  `Store` is that heap: a list of array cells addressed by index. -/

/-- The array heap: cell `r` holds the list `arrays[r]`. -/
structure Store where
  arrays : List (List BlogPost)

/-- Read the cell named by `r` (a dangling reference reads as `[]`). -/
def Store.read (s : Store) (r : Nat) : List BlogPost :=
  (s.arrays[r]?).getD []

/-- Allocate a fresh cell holding `xs`; returns the new store and the new
cell's name. -/
def Store.alloc (s : Store) (xs : List BlogPost) : Store × Nat :=
  (⟨s.arrays ++ [xs]⟩, s.arrays.length)

/-- Overwrite the cell named by `r`. -/
def Store.write (s : Store) (r : Nat) (xs : List BlogPost) : Store :=
  ⟨s.arrays.set r xs⟩

/-- `sortPostsByDate` against the heap: `[...posts]` allocates a fresh copy of
the cell `r`, then `.sort` overwrites that fresh cell with its sorted
contents; the cell `r` itself is never written. -/
def sortPostsByDateS (s : Store) (r : Nat) : Store × Nat :=
  let copied := s.alloc (s.read r)
  (copied.1.write copied.2 (sortPostsByDate (copied.1.read copied.2)), copied.2)

/-- `handleTimeline` against the heap: sort (on a fresh cell), then compute
the rows from the sorted cell's contents (the remainder of the handler only
reads). -/
def handleTimelineS (s : Store) (r : Nat) : Store × List TimelineRow :=
  let sorted := sortPostsByDateS s r
  (sorted.1, timelineOfSorted (sorted.1.read sorted.2))

/-- `handleStatus` against the heap, with `today` the internally read clock
instant. -/
def handleStatusS (s : Store) (r : Nat) (today : Int) : Store × StatusSummary :=
  let sorted := sortPostsByDateS s r
  (sorted.1, statusOfSorted (sorted.1.read sorted.2) today)

/-- `n` consecutive day rows starting at day `d0`, each carrying its bucket
count: the closed form of the emission loop. -/
def timelineRowsFrom (counts : Int → Nat) (d0 : Int) : Nat → List TimelineRow
  | 0 => []
  | n + 1 => { date := d0, count := counts d0 } :: timelineRowsFrom counts (d0 + 1) n

/-! ### Lemmas about the sort -/

theorem sortPostsByDate_perm (items : List BlogPost) :
    List.Perm (sortPostsByDate items) items :=
  List.perm_insertionSort postLe items

theorem sortPostsByDate_sorted (items : List BlogPost) :
    List.Pairwise postLe (sortPostsByDate items) :=
  List.sorted_insertionSort postLe items

theorem sortPostsByDate_eq_nil_iff (items : List BlogPost) :
    sortPostsByDate items = [] ↔ items = [] := by
  constructor
  · intro h
    have hp := (sortPostsByDate_perm items).symm
    rw [h] at hp
    exact hp.eq_nil
  · intro h
    rw [h]
    rfl

theorem sort_head_le (items : List BlogPost) (q : BlogPost) (rest : List BlogPost)
    (hl : sortPostsByDate items = q :: rest) (p : BlogPost) (hp : p ∈ items) :
    getPostDate q ≤ getPostDate p := by
  have hmem : p ∈ q :: rest := by
    rw [← hl]
    exact ((sortPostsByDate_perm items).mem_iff).mpr hp
  have hs : List.Pairwise postLe (q :: rest) := by
    rw [← hl]
    exact sortPostsByDate_sorted items
  rcases List.mem_cons.mp hmem with rfl | hmem2
  · exact le_refl _
  · exact (List.pairwise_cons.mp hs).1 p hmem2

theorem sort_head_le_getLast (items : List BlogPost) (q : BlogPost)
    (rest : List BlogPost) (hl : sortPostsByDate items = q :: rest) :
    getPostDate q ≤ getPostDate ((q :: rest).getLast (List.cons_ne_nil q rest)) := by
  have hmem : (q :: rest).getLast (List.cons_ne_nil q rest) ∈ sortPostsByDate items := by
    rw [hl]
    exact List.getLast_mem _
  exact sort_head_le items q rest hl _ (((sortPostsByDate_perm items).mem_iff).mp hmem)

/-! ### Lemmas about `minDate` -/

theorem foldl_min_le_init (l : List BlogPost) (a : Int) :
    l.foldl (fun m q => min m (getPostDate q)) a ≤ a := by
  induction l generalizing a with
  | nil => exact le_refl a
  | cons p l ih => exact le_trans (ih (min a (getPostDate p))) (min_le_left _ _)

theorem foldl_min_le_mem (l : List BlogPost) (a : Int) (p : BlogPost) (hp : p ∈ l) :
    l.foldl (fun m q => min m (getPostDate q)) a ≤ getPostDate p := by
  induction l generalizing a with
  | nil => cases hp
  | cons q l ih =>
    rcases List.mem_cons.mp hp with rfl | hp2
    · exact le_trans (foldl_min_le_init l _) (min_le_right _ _)
    · exact ih _ hp2

theorem foldl_min_eq_init_or_mem (l : List BlogPost) (a : Int) :
    l.foldl (fun m q => min m (getPostDate q)) a = a ∨
      ∃ p ∈ l, l.foldl (fun m q => min m (getPostDate q)) a = getPostDate p := by
  induction l generalizing a with
  | nil => exact Or.inl rfl
  | cons q l ih =>
    rcases ih (min a (getPostDate q)) with h | ⟨p, hp, hep⟩
    · by_cases hc : a ≤ getPostDate q
      · left
        rw [List.foldl_cons, h, min_eq_left hc]
      · right
        exact ⟨q, List.mem_cons_self q l, by
          rw [List.foldl_cons, h, min_eq_right (le_of_not_le hc)]⟩
    · right
      exact ⟨p, List.mem_cons_of_mem q hp, by rw [List.foldl_cons]; exact hep⟩

theorem minDate_le (items : List BlogPost) (p : BlogPost) (hp : p ∈ items) :
    minDate items ≤ getPostDate p := by
  cases items with
  | nil => cases hp
  | cons q rest =>
    rcases List.mem_cons.mp hp with rfl | hp2
    · exact foldl_min_le_init rest _
    · exact foldl_min_le_mem rest _ p hp2

theorem exists_minDate (items : List BlogPost) (h : items ≠ []) :
    ∃ p ∈ items, getPostDate p = minDate items := by
  cases items with
  | nil => exact absurd rfl h
  | cons q rest =>
    rcases foldl_min_eq_init_or_mem rest (getPostDate q) with he | ⟨p, hp, hep⟩
    · exact ⟨q, List.mem_cons_self q rest, by rw [minDate, he]⟩
    · exact ⟨p, List.mem_cons_of_mem q hp, by rw [minDate, hep]⟩

theorem sort_head_date (items : List BlogPost) (q : BlogPost) (rest : List BlogPost)
    (hl : sortPostsByDate items = q :: rest) :
    getPostDate q = minDate items := by
  have h1 : items ≠ [] := by
    intro he
    rw [(sortPostsByDate_eq_nil_iff items).mpr he] at hl
    exact List.cons_ne_nil q rest hl.symm
  apply le_antisymm
  · obtain ⟨p, hp, hep⟩ := exists_minDate items h1
    rw [← hep]
    exact sort_head_le items q rest hl p hp
  · apply minDate_le
    have hmem : q ∈ sortPostsByDate items := by
      rw [hl]
      exact List.mem_cons_self _ _
    exact ((sortPostsByDate_perm items).mem_iff).mp hmem

/-! ### Lemmas about `postCounts` -/

theorem postCounts_foldl (l : List BlogPost) (acc : Int → Nat) (d : Int) :
    (l.foldl
        (fun counts post => fun x =>
          if x = getDateString (getPostDate post) then counts x + 1 else counts x)
        acc) d
      = acc d + l.countP (fun p => getDateString (getPostDate p) == d) := by
  induction l generalizing acc with
  | nil => simp
  | cons p l ih =>
    rw [List.foldl_cons, ih, List.countP_cons]
    by_cases hc : getDateString (getPostDate p) = d
    · simp only [hc, beq_self_eq_true, if_pos rfl, if_true]
      omega
    · simp only [if_neg (Ne.symm hc), beq_iff_eq, if_neg hc]
      omega

theorem postCounts_eq_countP (posts : List BlogPost) (d : Int) :
    postCounts posts d = posts.countP (fun p => getDateString (getPostDate p) == d) := by
  have h := postCounts_foldl posts (fun _ => 0) d
  simpa [postCounts] using h

/-! ### The closed form of the timeline loop -/

theorem timelineLoop_eq (counts : Int → Nat) (lastDate currentDate : Int) :
    timelineLoop counts lastDate currentDate =
      if currentDate ≤ lastDate then
        timelineRowsFrom counts (getDateString currentDate)
          (((lastDate - currentDate) / msPerDay).toNat + 1)
      else [] := by
  induction currentDate using timelineLoop.induct counts lastDate with
  | case1 currentDate h ih =>
    rw [timelineLoop, dif_pos h, ih, if_pos h]
    by_cases h2 : currentDate + msPerDay ≤ lastDate
    · rw [if_pos h2]
      have e1 : getDateString (currentDate + msPerDay) = getDateString currentDate + 1 := by
        simp only [getDateString, msPerDay]
        omega
      have e2 : ((lastDate - currentDate) / msPerDay).toNat
          = ((lastDate - (currentDate + msPerDay)) / msPerDay).toNat + 1 := by
        simp only [msPerDay] at h2 ⊢
        omega
      rw [e2, e1]
      rfl
    · rw [if_neg h2]
      have e2 : ((lastDate - currentDate) / msPerDay).toNat = 0 := by
        simp only [msPerDay] at h h2 ⊢
        omega
      rw [e2]
      rfl
  | case2 currentDate h =>
    rw [timelineLoop, dif_neg h, if_neg h]

theorem handleTimeline_eq_of_sort (items : List BlogPost) (q : BlogPost)
    (rest : List BlogPost) (hl : sortPostsByDate items = q :: rest) :
    handleTimeline items =
      timelineRowsFrom (postCounts (q :: rest)) (getDateString (getPostDate q))
        (((getPostDate ((q :: rest).getLast (List.cons_ne_nil q rest)) - getPostDate q)
            / msPerDay).toNat + 1) := by
  unfold handleTimeline timelineOfSorted
  rw [hl]
  rw [dif_neg (List.cons_ne_nil q rest)]
  rw [timelineLoop_eq]
  rw [List.head_cons, if_pos (sort_head_le_getLast items q rest hl)]

/-! ### The closed form of the status computation -/

theorem handleStatus_eq (items : List BlogPost) (today : Int) (h : items ≠ []) :
    handleStatus items today =
      { total := (items.length : Int),
        days := (today - minDate items) / msPerDay + 1,
        delta := (items.length : Int) - ((today - minDate items) / msPerDay + 1) } := by
  have hs : sortPostsByDate items ≠ [] := fun he =>
    h ((sortPostsByDate_eq_nil_iff items).mp he)
  cases hl : sortPostsByDate items with
  | nil => exact absurd hl hs
  | cons q rest =>
    unfold handleStatus statusOfSorted
    rw [hl]
    rw [dif_neg (List.cons_ne_nil q rest)]
    have hlen : (q :: rest).length = items.length := (hl ▸ sortPostsByDate_perm items).length_eq
    have hhead : getPostDate ((q :: rest).head (List.cons_ne_nil q rest)) = minDate items := by
      rw [List.head_cons]
      exact sort_head_date items q rest hl
    simp only [hlen, hhead, getDaysBetween]

/-! ### The frame lemma for the store model -/

theorem sortPostsByDateS_read (s : Store) (r : Nat) :
    ((sortPostsByDateS s r).1).read r = s.read r := by
  simp only [sortPostsByDateS, Store.alloc, Store.write, Store.read]
  have hcopy : (s.arrays ++ [s.arrays[r]?.getD []])[s.arrays.length]?
      = some (s.arrays[r]?.getD []) := by
    rw [List.getElem?_append_right (le_refl _)]
    simp
  rw [hcopy, Option.getD_some]
  rcases Nat.lt_trichotomy r s.arrays.length with h | h | h
  · rw [List.getElem?_set_ne (by omega)]
    rw [List.getElem?_append_left h]
  · have hnone : s.arrays[r]? = none := List.getElem?_eq_none (le_of_eq h.symm)
    rw [hnone]
    have hself : ((s.arrays ++ [(none : Option (List BlogPost)).getD []]).set s.arrays.length
        (sortPostsByDate ((none : Option (List BlogPost)).getD [])))[r]?
        = some (sortPostsByDate []) := by
      rw [h]
      exact List.getElem?_set_self (by simp)
    rw [hself]
    rfl
  · have h1 : ((s.arrays ++ [s.arrays[r]?.getD []]).set s.arrays.length
        (sortPostsByDate (s.arrays[r]?.getD []))).length ≤ r := by
      rw [List.length_set, List.length_append]
      simp only [List.length_cons, List.length_nil]
      omega
    rw [List.getElem?_eq_none h1, List.getElem?_eq_none (by omega : s.arrays.length ≤ r)]

/-! ### Concrete inputs used by the claim theorems -/

/-- A post published 1970-01-01T23:00:00Z (day 0, late in the day). -/
def postA : BlogPost := { id := "1", title := "Post 1", date_published := 82800000 }

/-- A post published 1970-01-04T01:00:00Z (day 3, early in the day). -/
def postB : BlogPost := { id := "2", title := "Post 2", date_published := 262800000 }

/-- A post published 2024-12-12T10:00:00Z. -/
def postC : BlogPost := { id := "1", title := "Post 1", date_published := 1733997600000 }

/-- A post published 1970-01-01T00:00:00Z. -/
def postD : BlogPost := { id := "1", title := "Post 1", date_published := 0 }

/-- A post published 1970-01-02T00:00:00Z. -/
def postE : BlogPost := { id := "1", title := "Post 1", date_published := 86400000 }

/-- An entry of the epoch-seconds feed typed `"page"`, dated 2024-12-15. -/
def pageEntry : Entry := { date := 1734260400, type := some "page" }

/-- An entry of the epoch-seconds feed typed `"post"`, dated 2024-12-15 (the
same day as `pageEntry`). -/
def postEntry : Entry := { date := 1734260400, type := some "post" }

/-- An entry of the epoch-seconds feed typed `"post"`, dated
2024-12-12T11:00:00Z (epoch seconds 1734001200, UTC day index 20069). -/
def decEntry : Entry := { date := 1734001200, type := some "post" }

/-! ### Claim theorems -/

/-- C1 (code_bug evidence): on two posts published 1970-01-01T23:00Z and
1970-01-04T01:00Z the timeline emits only the three rows for days 0, 1 and 2,
although the inclusive calendar-day range from the earliest post's day to the
latest post's day spans 4 days — the `while (currentDate <= lastDate)` loop
compares full timestamps, so day 3 (which holds the latest post) is never
emitted. -/
theorem timeline_misses_last_day :
    handleTimeline [postA, postB]
        = [{ date := 0, count := 1 }, { date := 1, count := 0 }, { date := 2, count := 0 }] ∧
      getDateString (getPostDate postB) - getDateString (getPostDate postA) + 1 = 4 := by
  constructor
  · rw [handleTimeline_eq_of_sort [postA, postB] postA [postB] (by decide)]
    decide
  · decide

/-- C2 (code_bug evidence): on the same two posts the timeline row counts sum
to 1 while the input holds 2 posts — the post on the dropped final day is
counted in the bucket map but its row is never emitted. -/
theorem timeline_count_sum_mismatch :
    ((handleTimeline [postA, postB]).map TimelineRow.count).sum = 1 ∧
      [postA, postB].length = 2 := by
  constructor
  · rw [handleTimeline_eq_of_sort [postA, postB] postA [postB] (by decide)]
    decide
  · decide

/-- C3 (code_bug evidence): for a single post published 2024-12-12T10:00:00Z
and now = 2024-12-15T09:00:00Z, `handleStatus` reports `days = 3` (floor of
the raw 71-hour instant difference over one day, plus one) whereas the
claim's midnight-truncated formula gives 4 (December 12 through 15
inclusive): `getDaysBetween` never truncates its arguments to UTC midnight. -/
theorem status_days_no_midnight_truncation :
    (handleStatus [postC] 1734253200000).days = 3 ∧
      getDateString 1734253200000 - getDateString (getPostDate postC) + 1 = 4 := by
  constructor <;> decide

/-- C4: in the epoch-seconds feed variant, the status total counts exactly
the entries whose type discriminator is absent or equals `"post"`; in
particular one `"page"` entry plus one `"post"` entry on the same day yield
`total = 1`. -/
theorem status_counts_only_posts :
    (∀ (entries : List Entry) (nowDay : Int),
        (computeStatus entries nowDay).total = (entries.countP isPostEntry : Int)) ∧
      (computeStatus [pageEntry, postEntry] 20073).total = 1 := by
  constructor
  · intro entries nowDay
    have hlen : (postDatesOf entries).length = entries.countP isPostEntry := by
      unfold postDatesOf
      rw [(List.perm_insertionSort _ _).length_eq, List.length_map,
        ← List.countP_eq_length_filter]
    rw [← hlen]
    unfold computeStatus
    cases hl : postDatesOf entries with
    | nil => rfl
    | cons d rest => rfl
  · decide

/-- C5: the epoch-seconds normalizer decodes each kept entry's timestamp as
Unix epoch seconds, multiplies by 1000 and truncates the resulting instant to
its UTC day, and these decoded days are exactly what the timeline and status
operations bucket on (concretely: seconds 1734001200 decode to day 20069 =
2024-12-12, and a single such post anchors both a timeline row with count 1
and a status total of 1 on that day). -/
theorem normalizer_decodes_epoch_seconds :
    (∀ (entries : List Entry) (d : Int),
        d ∈ postDatesOf entries ↔
          ∃ e ∈ entries, isPostEntry e = true ∧ d = (1000 * e.date) / msPerDay) ∧
      postDatesOf [decEntry] = [20069] ∧
      computeTimeline [decEntry] 20070
          = [{ date := 20069, count := 1 }, { date := 20070, count := 0 }] ∧
      computeStatus [decEntry] 20073 = { total := 1, days := 5, delta := -4 } := by
  refine ⟨?_, by decide, by decide, by decide⟩
  intro entries d
  unfold postDatesOf
  rw [(List.perm_insertionSort _ _).mem_iff, List.mem_map]
  constructor
  · rintro ⟨e, he, rfl⟩
    rcases List.mem_filter.mp he with ⟨he2, hpost⟩
    exact ⟨e, he2, hpost, rfl⟩
  · rintro ⟨e, he, hpost, rfl⟩
    exact ⟨e, List.mem_filter.mpr ⟨he, hpost⟩, rfl⟩

/-- C6 counterexample: with the post list held fixed, `handleStatus` produces
different outputs for two different values of the instant it reads internally
from `new Date()` — the status output is not a function of the handler's one
explicit input (the feed). -/
theorem status_depends_on_clock :
    handleStatus [postD] 0 ≠ handleStatus [postD] 86400000 := by decide

/-- C6 (amended): the timeline output is a pure function of the feed, and the
status output is fully determined by the feed together with the clock instant
read internally — explicitly, it equals a closed form in the item count, the
minimum published instant and that clock instant. -/
theorem status_determined_by_items_and_clock (items : List BlogPost) (today : Int)
    (h : items ≠ []) :
    handleStatus items today =
      { total := (items.length : Int),
        days := (today - minDate items) / msPerDay + 1,
        delta := (items.length : Int) - ((today - minDate items) / msPerDay + 1) } :=
  handleStatus_eq items today h

/-- Witness for C6 (amended) at the one-post feed `[postD]` and clock instant
1970-01-02T00:00:00Z. -/
theorem status_determined_by_items_and_clock_witness :
    ([postD] ≠ ([] : List BlogPost)) ∧
      handleStatus [postD] 86400000 = { total := 1, days := 2, delta := -1 } :=
  ⟨by decide, by
    rw [status_determined_by_items_and_clock [postD] 86400000 (by decide)]
    decide⟩

/-- C7: the empty post list is not an error: the timeline emits no rows at
all, and the status is the fixed sentinel `{total := 0, days := 0, delta := 0}`
for every clock instant. -/
theorem empty_feed_sentinels :
    handleTimeline [] = [] ∧
      ∀ today : Int, handleStatus [] today = { total := 0, days := 0, delta := 0 } := by
  constructor
  · rfl
  · intro today
    rfl

/-- C8 counterexample: for a post published on day 1 and a clock instant on
day 0 (now earlier than the first post), `handleStatus` reports `days = 0`,
refuting `days ≥ 1` for every now. -/
theorem status_days_can_be_zero :
    ¬ 1 ≤ (handleStatus [postE] 0).days := by decide

/-- C8 (amended): for every non-empty post list, `delta = total - days` holds
exactly for every now, and `days ≥ 1` holds provided now is not earlier than
the earliest post's published instant. -/
theorem status_delta_and_days_lower_bound (items : List BlogPost) (today : Int)
    (h : items ≠ []) :
    (handleStatus items today).delta
        = (handleStatus items today).total - (handleStatus items today).days ∧
      (minDate items ≤ today → 1 ≤ (handleStatus items today).days) := by
  rw [handleStatus_eq items today h]
  constructor
  · rfl
  · intro hle
    simp only [msPerDay]
    omega

/-- Witness for C8 (amended) at the one-post feed `[postE]` and a later
clock instant. -/
theorem status_delta_and_days_lower_bound_witness :
    ([postE] ≠ ([] : List BlogPost)) ∧ minDate [postE] ≤ 172800000 ∧
      (handleStatus [postE] 172800000).delta
          = (handleStatus [postE] 172800000).total - (handleStatus [postE] 172800000).days ∧
      1 ≤ (handleStatus [postE] 172800000).days := by
  refine ⟨by decide, by decide, ?_, ?_⟩
  · exact (status_delta_and_days_lower_bound [postE] 172800000 (by decide)).1
  · exact (status_delta_and_days_lower_bound [postE] 172800000 (by decide)).2 (by decide)

/-- C9: for every non-empty post list the first emitted timeline row is dated
the earliest post's UTC calendar day and carries a count of at least 1, so
the first row is never a gap row. -/
theorem timeline_first_row (items : List BlogPost) (h : items ≠ []) :
    ∃ (n : Nat) (rest : List TimelineRow),
      1 ≤ n ∧
        handleTimeline items
          = { date := getDateString (minDate items), count := n } :: rest := by
  have hs : sortPostsByDate items ≠ [] := fun he =>
    h ((sortPostsByDate_eq_nil_iff items).mp he)
  cases hl : sortPostsByDate items with
  | nil => exact absurd hl hs
  | cons q rest =>
    have hq : getPostDate q = minDate items := sort_head_date items q rest hl
    rw [handleTimeline_eq_of_sort items q rest hl, hq]
    refine ⟨_, _, ?_, rfl⟩
    rw [postCounts_eq_countP]
    have hpos : 0 < (q :: rest).countP
        (fun p => getDateString (getPostDate p) == getDateString (minDate items)) :=
      List.countP_pos_iff.mpr ⟨q, List.mem_cons_self q rest, by simp [hq]⟩
    omega

/-- Witness for C9 at the one-post feed `[postD]`. -/
theorem timeline_first_row_witness :
    ([postD] ≠ ([] : List BlogPost)) ∧
      ∃ (n : Nat) (rest : List TimelineRow),
        1 ≤ n ∧
          handleTimeline [postD]
            = { date := getDateString (minDate [postD]), count := n } :: rest :=
  ⟨by decide, timeline_first_row [postD] (by decide)⟩

/-- C10: neither operation mutates its input: after running the timeline or
the status handler against the heap, the feed's item cell holds exactly the
list (same elements, same order) it held before — the sort runs on a freshly
allocated copy. -/
theorem operations_do_not_mutate_input (s : Store) (r : Nat) (today : Int) :
    ((handleTimelineS s r).1).read r = s.read r ∧
      ((handleStatusS s r today).1).read r = s.read r :=
  ⟨sortPostsByDateS_read s r, sortPostsByDateS_read s r⟩

end Blog
